import Mathlib

/-!
Shallow embedding of `botcat.py`, a utility that forwards standard input to a
Telegram chat via a bot client, with optional line splitting, message-kind
selection and a bounded retry policy.

Modelling decisions:
* The external bot client is an oracle: each client call is given the next
  element of a finite `List Bool` of outcomes (`true` = the call succeeds,
  `false` = the call throws).  When the outcome list runs out while the loop
  would continue, the result is `SendResult.pending` — the loop is still
  running, having neither returned nor raised.
* The `while True` loop of `send_message` is recursion on the outcome list; the
  local variable `retries` is the `budget` argument.
* The Python `args` namespace could in principle be mutated, so it is threaded
  through every function as explicit state and returned; theorems show it is
  returned unchanged.
* Every client call is recorded as a `ClientCall` (operation, chat id,
  payload, keyword arguments), so the trace of outbound calls is observable.
* Standard input is a pair of views, the raw bytes (`sys.stdin.buffer`) and
  the decoded text (`sys.stdin`), of which each run reads exactly one.
-/

namespace Botcat

/-- The message kinds accepted by `--type` (keys of `MESSAGE_TYPES`). -/
inductive MessageType
  | text
  | photo
  | audio
  | document
  | video
  | voice
deriving DecidableEq, Repr

/-- The distinct outbound operations of the bot client
(`sendMessage`, `sendPhoto`, ...). -/
inductive ClientOp
  | sendMessage
  | sendPhoto
  | sendAudio
  | sendDocument
  | sendVideo
  | sendVoice
deriving DecidableEq, Repr

/-- `MESSAGE_TYPES`: maps each message kind to the bot-client operation used
to send it (the media kinds go through `media_wrapper`, which only adapts the
payload to a stream and calls the wrapped operation). -/
def MESSAGE_TYPES : MessageType → ClientOp
  | .text => .sendMessage
  | .photo => .sendPhoto
  | .audio => .sendAudio
  | .document => .sendDocument
  | .video => .sendVideo
  | .voice => .sendVoice

/-- The `--parse-mode` choices. -/
inductive ParseMode
  | HTML
  | Markdown
deriving DecidableEq, Repr

/-- The parsed command-line arguments (the `args` namespace built by
`parse_command_line`). -/
structure Args where
  token : String
  channel : String
  type : MessageType
  parse_mode : Option ParseMode
  split_newlines : Bool
  retries : Nat
deriving DecidableEq, Repr

/-- A message payload: decoded text (for kind `text`) or raw bytes
(for the media kinds). -/
inductive Payload
  | text (s : List Char)
  | bytes (b : List Nat)
deriving DecidableEq, Repr

/-- One call to the bot client, as observed at the client boundary:
the operation invoked, the chat id argument, the payload, and the
`parse_mode` keyword argument (`none` when the caller passed no keyword
arguments at all, `some pm` when it passed `parse_mode=pm`). -/
structure ClientCall where
  op : ClientOp
  chat_id : String
  payload : Payload
  kw_parse_mode : Option (Option ParseMode)
deriving DecidableEq, Repr

/-- The data carried by the terminal `RuntimeError` raised by
`send_message`: the offending message and the configured retry count
(`"Message %r was not sent after %d retries" % (message, args.retries)`). -/
structure SendError where
  message : Payload
  retries : Nat
deriving DecidableEq, Repr

/-- Result of running `send_message` against a finite outcome oracle. -/
inductive SendResult
  | sent
  | raised (e : SendError)
  | pending
deriving DecidableEq, Repr

/-- The body of the `while True` loop of `send_message`.  `budget` is the local
variable `retries` (initialized by the caller from `args.retries`); each
outcome consumed corresponds to one `await MESSAGE_TYPES[args.type](...)`.
On failure: if `args.retries == 0` the loop continues with the budget
untouched; otherwise the budget is decremented and, at zero, the
`RuntimeError` is raised.  Returns the result, the trace of client calls
made, and the final state of `args`. -/
def sendLoop (msg : Payload) (kw : Option (Option ParseMode)) :
    Args → Nat → List Bool → SendResult × List ClientCall × Args
  | args, _, [] => (.pending, [], args)
  | args, budget, ok :: rest =>
    let call : ClientCall := ⟨MESSAGE_TYPES args.type, args.channel, msg, kw⟩
    if ok then
      (.sent, [call], args)
    else if args.retries = 0 then
      let r := sendLoop msg kw args budget rest
      (r.1, call :: r.2.1, r.2.2)
    else if budget - 1 = 0 then
      (.raised ⟨msg, args.retries⟩, [call], args)
    else
      let r := sendLoop msg kw args (budget - 1) rest
      (r.1, call :: r.2.1, r.2.2)

/-- `send_message(bot, args, message, **kwargs)`: initializes the local
attempt budget from `args.retries` and runs the retry loop. -/
def send_message (args : Args) (msg : Payload) (kw : Option (Option ParseMode))
    (outcomes : List Bool) : SendResult × List ClientCall × Args :=
  sendLoop msg kw args args.retries outcomes

/-- `Reader.readline` on a text stream modelled as its remaining characters:
returns the next line including its terminator, together with the rest of the
stream; at end of stream the line is empty. -/
def readline : List Char → List Char × List Char
  | [] => ([], [])
  | c :: cs =>
    if c = '\n' then ([c], cs)
    else
      let p := readline cs
      (c :: p.1, p.2)

/-- `Reader.read`: consumes and returns the entire remaining stream. -/
def read (cs : List Char) : List Char × List Char :=
  (cs, [])

/-- The `async for line in reader` iteration (`Reader.__anext__`): read a
line; the empty line is the end-of-stream sentinel and stops the iteration,
any other line is yielded and the iteration continues. -/
def linesOf (cs : List Char) : List (List Char) :=
  if h : (readline cs).1 = [] then []
  else (readline cs).1 :: linesOf (readline cs).2
termination_by cs.length
decreasing_by
  have key : ∀ ds : List Char, ds ≠ [] → (readline ds).2.length < ds.length := by
    intro ds
    induction ds with
    | nil => intro hds; exact absurd rfl hds
    | cons c cs' ih =>
      intro _
      simp only [readline]
      by_cases hc : c = '\n'
      · simp [hc, Nat.lt_succ_iff]
      · simp only [hc, if_false]
        rcases eq_or_ne cs' [] with h' | h'
        · subst h'; simp [readline]
        · exact Nat.lt_succ_of_lt (ih h')
  exact key cs (fun hnil => h (by rw [hnil]; rfl))

/-- Standard input, with its two views: the raw bytes
(`sys.stdin.buffer.read()`) and the decoded text (`sys.stdin`). -/
structure Stdin where
  bytesView : List Nat
  textView : List Char
deriving DecidableEq, Repr

/-- Outcome of a whole run of `transfer_stdin`. -/
inductive RunResult
  | done
  | aborted (e : SendError)
  | pending
deriving DecidableEq, Repr

/-- The sequence of messages `transfer_stdin` hands to `send_message`,
each with the keyword arguments of that call site: media kinds send the raw
bytes with no keyword arguments; text without `--split-newlines` sends the
whole decoded input with `parse_mode=args.parse_mode`; text with
`--split-newlines` sends each line with `parse_mode=args.parse_mode`. -/
def plannedMessages (args : Args) (stdin : Stdin) :
    List (Payload × Option (Option ParseMode)) :=
  if args.type ≠ .text then
    [(.bytes stdin.bytesView, none)]
  else if args.split_newlines = false then
    [(.text (read stdin.textView).1, some args.parse_mode)]
  else
    (linesOf stdin.textView).map fun l => (.text l, some args.parse_mode)

/-- The sequential send loop of `transfer_stdin`: sends each message in
order through `send_message`, consuming one outcome list per message.
A raised `RuntimeError` propagates: the run aborts and no later message is
attempted.  The `args` state is threaded through each call. -/
def runMessages : Args → List (Payload × Option (Option ParseMode)) →
    List (List Bool) → RunResult × List ClientCall × Args
  | args, [], _ => (.done, [], args)
  | args, (m, kw) :: rest, oracles =>
    let r := send_message args m kw (oracles.headD [])
    match r.1 with
    | .sent =>
      let r2 := runMessages r.2.2 rest oracles.tail
      (r2.1, r.2.1 ++ r2.2.1, r2.2.2)
    | .raised e => (.aborted e, r.2.1, r.2.2)
    | .pending => (.pending, r.2.1, r.2.2)

/-- `transfer_stdin(loop, args)`: plan the messages from the flags and the
input, then send them in order. -/
def transfer_stdin (args : Args) (stdin : Stdin) (oracles : List (List Bool)) :
    RunResult × List ClientCall × Args :=
  runMessages args (plannedMessages args stdin) oracles

/-- Written from the words of the specification, for comparison with
`runMessages`: the configuration is read-only, and the retry budget of each
message is a fresh local counter initialized from the configured retry count
of the original configuration `cfg`, never shared with any other message.
`runMessages` threads the possibly-mutated configuration from message to
message; this definition always uses `cfg`. -/
def runMessagesSpec (cfg : Args) :
    List (Payload × Option (Option ParseMode)) → List (List Bool) →
    RunResult × List ClientCall
  | [], _ => (.done, [])
  | (m, kw) :: rest, oracles =>
    let r := sendLoop m kw cfg cfg.retries (oracles.headD [])
    match r.1 with
    | .sent =>
      let r2 := runMessagesSpec cfg rest oracles.tail
      (r2.1, r.2.1 ++ r2.2)
    | .raised e => (.aborted e, r.2.1)
    | .pending => (.pending, r.2.1)

/-- `check_negative`, the `type=` converter of `--retries`: rejects a
negative value with an `ArgumentTypeError`, accepts any other. -/
def check_negative (value : Int) : Except String Int :=
  if value < 0 then
    .error (toString value ++ " is not a positive integer")
  else
    .ok value

/-- The `--retries` handling of `parse_command_line`: the raw value goes
through `check_negative`; an `ArgumentTypeError` becomes a usage error that
terminates argument parsing. -/
def parse_retries (value : Int) : Except String Nat :=
  match check_negative value with
  | .error e => .error e
  | .ok v => .ok v.toNat

/-- `main`: parse the command line, then run `transfer_stdin`.  A usage
error during parsing terminates the process before any input is read or any
message is sent, which the `.error` result models (it carries no run and no
client calls).  `mkArgs` builds the rest of the configuration around the
parsed retry count. -/
def main (rawRetries : Int) (mkArgs : Nat → Args) (stdin : Stdin)
    (oracles : List (List Bool)) :
    Except String (RunResult × List ClientCall × Args) :=
  match parse_retries rawRetries with
  | .error e => .error e
  | .ok r => .ok (transfer_stdin (mkArgs r) stdin oracles)

/-- A concrete configuration with kind `text` and `--split-newlines` set,
used by concrete instances of the theorems below. -/
def argsSplit : Args :=
  ⟨"tok", "chan", .text, some .HTML, true, 1⟩

/-- A concrete configuration with a retry count of 2. -/
def argsRetry2 : Args :=
  ⟨"tok", "chan", .text, none, false, 2⟩

/-- A concrete configuration with a retry count of 0 (retry forever). -/
def argsRetry0 : Args :=
  ⟨"tok", "chan", .text, none, false, 0⟩

/-- A concrete configuration with kind `text` and `--split-newlines` unset. -/
def argsWhole : Args :=
  ⟨"tok", "chan", .text, some .Markdown, false, 1⟩

/-- A concrete configuration with kind `photo` and `--split-newlines` set. -/
def argsPhoto : Args :=
  ⟨"tok", "chan", .photo, none, true, 1⟩

/-! ## Helper lemmas -/

theorem readline_rest_length : ∀ cs : List Char, cs ≠ [] →
    (readline cs).2.length < cs.length := by
  intro cs
  induction cs with
  | nil => intro hds; exact absurd rfl hds
  | cons c cs' ih =>
    intro _
    simp only [readline]
    by_cases hc : c = '\n'
    · simp [hc, Nat.lt_succ_iff]
    · simp only [hc, if_false]
      rcases eq_or_ne cs' [] with h' | h'
      · subst h'; simp [readline]
      · exact Nat.lt_succ_of_lt (ih h')

theorem readline_fst_eq_nil : ∀ cs : List Char,
    (readline cs).1 = [] ↔ cs = [] := by
  intro cs
  match cs with
  | [] => simp [readline]
  | c :: cs' =>
    simp only [readline]
    by_cases hc : c = '\n' <;> simp [hc]

/-- The retry loop never mutates the configuration. -/
theorem sendLoop_state (msg : Payload) (kw : Option (Option ParseMode)) :
    ∀ (os : List Bool) (args : Args) (b : Nat),
      (sendLoop msg kw args b os).2.2 = args := by
  intro os
  induction os with
  | nil => intro args b; rfl
  | cons o rest ih =>
    intro args b
    cases o <;> simp only [sendLoop]
    · by_cases hr : args.retries = 0
      · simp [hr, ih]
      · by_cases hb : b - 1 = 0
        · simp [hr, hb]
        · simp [hr, hb, ih]
    · rfl

/-- `send_message` never mutates the configuration. -/
theorem send_message_state (args : Args) (msg : Payload)
    (kw : Option (Option ParseMode)) (os : List Bool) :
    (send_message args msg kw os).2.2 = args :=
  sendLoop_state msg kw os args args.retries

/-- Every client call made by the retry loop is the same call:
the operation selected by the configured kind, the configured channel,
the message, and the keyword arguments of the call site. -/
theorem sendLoop_calls (msg : Payload) (kw : Option (Option ParseMode)) :
    ∀ (os : List Bool) (args : Args) (b : Nat) (c : ClientCall),
      c ∈ (sendLoop msg kw args b os).2.1 →
        c = ⟨MESSAGE_TYPES args.type, args.channel, msg, kw⟩ := by
  intro os
  induction os with
  | nil => intro args b c hc; simp [sendLoop] at hc
  | cons o rest ih =>
    intro args b c hc
    cases o
    · by_cases hr : args.retries = 0
      · simp only [sendLoop, hr, eq_self_iff_true, if_true, Bool.false_eq_true,
          if_false, List.mem_cons] at hc
        rcases hc with hc | hc
        · exact hc
        · exact ih args b c hc
      · by_cases hb : b - 1 = 0
        · simp only [sendLoop, hr, hb, eq_self_iff_true, if_true,
            Bool.false_eq_true, if_false, List.mem_singleton] at hc
          exact hc
        · simp only [sendLoop, hr, hb, Bool.false_eq_true, if_false,
            List.mem_cons] at hc
          rcases hc with hc | hc
          · exact hc
          · exact ih args (b - 1) c hc
    · simp only [sendLoop, eq_self_iff_true, if_true, List.mem_singleton] at hc
      exact hc

/-- The terminal error raised by the retry loop always carries the message
being sent and the configured retry count. -/
theorem sendLoop_raised (msg : Payload) (kw : Option (Option ParseMode)) :
    ∀ (os : List Bool) (args : Args) (b : Nat) (e : SendError),
      (sendLoop msg kw args b os).1 = .raised e →
        e = ⟨msg, args.retries⟩ := by
  intro os
  induction os with
  | nil => intro args b e he; simp [sendLoop] at he
  | cons o rest ih =>
    intro args b e he
    cases o
    · by_cases hr : args.retries = 0
      · simp only [sendLoop, hr, eq_self_iff_true, if_true, Bool.false_eq_true,
          if_false] at he
        exact ih args b e he
      · by_cases hb : b - 1 = 0
        · simp only [sendLoop, hr, hb, eq_self_iff_true, if_true,
            Bool.false_eq_true, if_false, SendResult.raised.injEq] at he
          rw [← he]
        · simp only [sendLoop, hr, hb, Bool.false_eq_true, if_false] at he
          exact ih args (b - 1) e he
    · simp [sendLoop] at he

/-- With a nonzero configured retry count and a budget of `b > 0` attempts
left, `b` consecutive failures raise the terminal error after exactly `b`
calls, whatever outcomes would have followed. -/
theorem sendLoop_exhaust (msg : Payload) (kw : Option (Option ParseMode))
    (args : Args) (h : args.retries ≠ 0) :
    ∀ (b : Nat), b ≠ 0 → ∀ tail : List Bool,
      sendLoop msg kw args b (List.replicate b false ++ tail) =
        (.raised ⟨msg, args.retries⟩,
         List.replicate b ⟨MESSAGE_TYPES args.type, args.channel, msg, kw⟩,
         args) := by
  intro b
  induction b with
  | zero => intro hb; exact absurd rfl hb
  | succ n ih =>
    intro _ tail
    by_cases hn : n = 0
    · subst hn
      simp [sendLoop, h]
    · have hstep : n + 1 - 1 = n := rfl
      simp only [List.replicate_succ, List.cons_append, sendLoop,
        Bool.false_eq_true, if_false, h, hstep, hn, List.append_eq,
        ih hn tail]

/-- With configured retry count `0`, consecutive failures never raise: the
loop is still pending after consuming any finite number of failures. -/
theorem sendLoop_zero_pending (msg : Payload) (kw : Option (Option ParseMode))
    (args : Args) (h : args.retries = 0) :
    ∀ (n b : Nat),
      sendLoop msg kw args b (List.replicate n false) =
        (.pending,
         List.replicate n ⟨MESSAGE_TYPES args.type, args.channel, msg, kw⟩,
         args) := by
  intro n
  induction n with
  | zero => intro b; rfl
  | succ m ih =>
    intro b
    simp only [List.replicate_succ, sendLoop, Bool.false_eq_true, if_false,
      h, eq_self_iff_true, if_true, ih b]

/-- With configured retry count `0`, after any finite number `n` of
consecutive failures the loop makes an `(n+1)`-th call; if that call
succeeds the message is sent after exactly `n + 1` calls. -/
theorem sendLoop_zero_sent (msg : Payload) (kw : Option (Option ParseMode))
    (args : Args) (h : args.retries = 0) :
    ∀ (n b : Nat) (tail : List Bool),
      sendLoop msg kw args b (List.replicate n false ++ true :: tail) =
        (.sent,
         List.replicate (n + 1)
           ⟨MESSAGE_TYPES args.type, args.channel, msg, kw⟩,
         args) := by
  intro n
  induction n with
  | zero =>
    intro b tail
    simp [sendLoop, List.replicate_succ]
  | succ m ih =>
    intro b tail
    simp only [List.replicate_succ, List.cons_append, sendLoop,
      Bool.false_eq_true, if_false, h, eq_self_iff_true, if_true,
      List.append_eq, ih b tail]

/-- The sequential run never mutates the configuration. -/
theorem runMessages_state :
    ∀ (msgs : List (Payload × Option (Option ParseMode))) (args : Args)
      (os : List (List Bool)),
      (runMessages args msgs os).2.2 = args := by
  intro msgs
  induction msgs with
  | nil => intro args os; rfl
  | cons p rest ih =>
    intro args os
    obtain ⟨m, kw⟩ := p
    simp only [runMessages]
    rcases h1 : (send_message args m kw (os.headD [])).1 with _ | e | _
    · simp only [h1, ih, send_message_state]
    · simp only [h1, send_message_state]
    · simp only [h1, send_message_state]

/-- The state-threading run agrees with the specification-side run that
reuses the original configuration for every message. -/
theorem runMessages_eq_spec :
    ∀ (msgs : List (Payload × Option (Option ParseMode))) (args : Args)
      (os : List (List Bool)),
      runMessages args msgs os =
        ((runMessagesSpec args msgs os).1, (runMessagesSpec args msgs os).2,
         args) := by
  intro msgs
  induction msgs with
  | nil => intro args os; rfl
  | cons p rest ih =>
    intro args os
    obtain ⟨m, kw⟩ := p
    simp only [runMessages, runMessagesSpec, send_message]
    rcases h1 : (sendLoop m kw args args.retries (os.headD [])).1 with _ | e | _
    · simp only [h1, sendLoop_state, ih]
    · simp only [h1, sendLoop_state]
    · simp only [h1, sendLoop_state]

/-- Every call in the trace of a run belongs to one of the planned
messages, with the configured operation and channel. -/
theorem runMessages_calls :
    ∀ (msgs : List (Payload × Option (Option ParseMode))) (args : Args)
      (os : List (List Bool)) (c : ClientCall),
      c ∈ (runMessages args msgs os).2.1 →
        ∃ p ∈ msgs, c = ⟨MESSAGE_TYPES args.type, args.channel, p.1, p.2⟩ := by
  intro msgs
  induction msgs with
  | nil => intro args os c hc; simp [runMessages] at hc
  | cons p rest ih =>
    intro args os c hc
    obtain ⟨m, kw⟩ := p
    simp only [runMessages] at hc
    rcases h1 : (send_message args m kw (os.headD [])).1 with _ | e | _ <;>
        simp only [h1, List.mem_append] at hc
    · rcases hc with hc | hc
      · exact ⟨(m, kw), List.mem_cons_self _ _,
          sendLoop_calls m kw (os.headD []) args args.retries c hc⟩
      · rw [send_message_state] at hc
        obtain ⟨q, hq, hcq⟩ := ih args os.tail c hc
        exact ⟨q, List.mem_cons_of_mem _ hq, hcq⟩
    · exact ⟨(m, kw), List.mem_cons_self _ _,
        sendLoop_calls m kw (os.headD []) args args.retries c hc⟩
    · exact ⟨(m, kw), List.mem_cons_self _ _,
        sendLoop_calls m kw (os.headD []) args args.retries c hc⟩

/-- For kind `text`, every planned message carries
`parse_mode=args.parse_mode` as its keyword argument. -/
theorem plannedMessages_kw (args : Args) (stdin : Stdin)
    (h : args.type = .text) :
    ∀ p ∈ plannedMessages args stdin, p.2 = some args.parse_mode := by
  intro p hp
  simp only [plannedMessages, h, ne_eq, not_true_eq_false, if_false] at hp
  by_cases hs : args.split_newlines = false
  · simp only [hs, eq_self_iff_true, if_true, List.mem_singleton] at hp
    rw [hp]
  · rw [if_neg hs] at hp
    obtain ⟨l, _, hl⟩ := List.mem_map.mp hp
    rw [← hl]

/-! ## Claims -/

/-- C1: for every configured retry count `R > 0`, if every client call for a
message fails, `send_message` raises the terminal exhausted-retry error after
exactly `R` consecutive failed attempts (the call trace has exactly `R`
entries, so no `(R+1)`-th client call is made, whatever outcomes would have
followed), and the error identifies the message payload and the configured
retry count. -/
theorem send_message_exhausts_after_retries (args : Args) (msg : Payload)
    (kw : Option (Option ParseMode)) (tail : List Bool)
    (h : 0 < args.retries) :
    send_message args msg kw (List.replicate args.retries false ++ tail) =
      (.raised ⟨msg, args.retries⟩,
       List.replicate args.retries
         ⟨MESSAGE_TYPES args.type, args.channel, msg, kw⟩,
       args) :=
  sendLoop_exhaust msg kw args (Nat.pos_iff_ne_zero.mp h) args.retries
    (Nat.pos_iff_ne_zero.mp h) tail

theorem send_message_exhausts_after_retries_witness :
    send_message argsRetry2 (.text ['h', 'i']) (some none)
        (List.replicate 2 false ++ [true]) =
      (.raised ⟨.text ['h', 'i'], 2⟩,
       List.replicate 2 ⟨.sendMessage, "chan", .text ['h', 'i'], some none⟩,
       argsRetry2) :=
  send_message_exhausts_after_retries argsRetry2 (.text ['h', 'i'])
    (some none) [true] (by decide)

/-- C2: for configured retry count `R = 0`, `send_message` never raises the
exhausted-retry failure: after any finite number `n` of consecutive client
call failures the loop is still pending (first conjunct), and when an
`(n+1)`-th outcome is available the `(n+1)`-th attempt is made (second
conjunct: the call trace has `n + 1` entries). -/
theorem send_message_zero_retries_no_ceiling (args : Args) (msg : Payload)
    (kw : Option (Option ParseMode)) (n : Nat) (tail : List Bool)
    (h : args.retries = 0) :
    send_message args msg kw (List.replicate n false) =
      (.pending,
       List.replicate n ⟨MESSAGE_TYPES args.type, args.channel, msg, kw⟩,
       args) ∧
    send_message args msg kw (List.replicate n false ++ true :: tail) =
      (.sent,
       List.replicate (n + 1)
         ⟨MESSAGE_TYPES args.type, args.channel, msg, kw⟩,
       args) :=
  ⟨sendLoop_zero_pending msg kw args h n args.retries,
   sendLoop_zero_sent msg kw args h n args.retries tail⟩

theorem send_message_zero_retries_no_ceiling_witness :
    send_message argsRetry0 (.text ['h']) (some none)
        (List.replicate 1000 false) =
      (.pending,
       List.replicate 1000 ⟨.sendMessage, "chan", .text ['h'], some none⟩,
       argsRetry0) ∧
    send_message argsRetry0 (.text ['h']) (some none)
        (List.replicate 1000 false ++ true :: []) =
      (.sent,
       List.replicate (1000 + 1)
         ⟨.sendMessage, "chan", .text ['h'], some none⟩,
       argsRetry0) :=
  send_message_zero_retries_no_ceiling argsRetry0 (.text ['h']) (some none)
    1000 [] (by decide)

/-- C3: with kind `text`, `--split-newlines` set and input `"a\nb\nc\n"`,
exactly three send operations occur, in input order, with payloads `"a\n"`,
`"b\n"`, `"c\n"`; and the line sequence is empty exactly when reading a line
yields the empty end-of-stream sentinel. -/
theorem split_newlines_sends_each_line :
    transfer_stdin argsSplit ⟨[], "a\nb\nc\n".toList⟩ [[true], [true], [true]] =
      (.done,
       [⟨.sendMessage, "chan", .text "a\n".toList, some (some .HTML)⟩,
        ⟨.sendMessage, "chan", .text "b\n".toList, some (some .HTML)⟩,
        ⟨.sendMessage, "chan", .text "c\n".toList, some (some .HTML)⟩],
       argsSplit) ∧
    (∀ cs : List Char, linesOf cs = [] ↔ (readline cs).1 = []) := by
  constructor
  · simp [transfer_stdin, plannedMessages, argsSplit, linesOf, readline,
      runMessages, send_message, sendLoop, MESSAGE_TYPES]
  · intro cs
    rw [linesOf]
    by_cases h : (readline cs).1 = []
    · simp [h]
    · simp [h]

/-- C4: with kind `text` and `--split-newlines` unset, exactly one send
operation occurs and its payload is the entire remaining input read from
standard input. -/
theorem no_split_sends_whole_input (args : Args) (stdin : Stdin)
    (h1 : args.type = .text) (h2 : args.split_newlines = false)
    (tail : List Bool) :
    plannedMessages args stdin =
      [(.text stdin.textView, some args.parse_mode)] ∧
    transfer_stdin args stdin [true :: tail] =
      (.done,
       [⟨.sendMessage, args.channel, .text stdin.textView,
         some args.parse_mode⟩],
       args) := by
  have hp : plannedMessages args stdin =
      [(.text stdin.textView, some args.parse_mode)] := by
    simp [plannedMessages, h1, h2, read]
  refine ⟨hp, ?_⟩
  simp [transfer_stdin, hp, runMessages, send_message, sendLoop, h1,
    MESSAGE_TYPES]

theorem no_split_sends_whole_input_witness :
    plannedMessages argsWhole ⟨[], "a\nb\nc\n".toList⟩ =
      [(.text "a\nb\nc\n".toList, some (some .Markdown))] ∧
    transfer_stdin argsWhole ⟨[], "a\nb\nc\n".toList⟩ [[true]] =
      (.done,
       [⟨.sendMessage, "chan", .text "a\nb\nc\n".toList,
         some (some .Markdown)⟩],
       argsWhole) :=
  no_split_sends_whole_input argsWhole ⟨[], "a\nb\nc\n".toList⟩ (by decide)
    (by decide) []

/-- C5: for every non-text (media) kind and every raw-byte input, the whole
byte sequence is sent as a single binary payload using the outbound operation
specific to that kind, regardless of the `--split-newlines` flag (the
configuration is arbitrary apart from its kind). -/
theorem media_sends_single_binary (args : Args) (stdin : Stdin)
    (h : args.type ≠ .text) (tail : List Bool) :
    plannedMessages args stdin = [(.bytes stdin.bytesView, none)] ∧
    transfer_stdin args stdin [true :: tail] =
      (.done,
       [⟨MESSAGE_TYPES args.type, args.channel, .bytes stdin.bytesView,
         none⟩],
       args) := by
  have hp : plannedMessages args stdin = [(.bytes stdin.bytesView, none)] := by
    simp [plannedMessages, h]
  refine ⟨hp, ?_⟩
  simp [transfer_stdin, hp, runMessages, send_message, sendLoop]

theorem media_sends_single_binary_witness :
    plannedMessages argsPhoto ⟨[7, 8, 9], []⟩ = [(.bytes [7, 8, 9], none)] ∧
    transfer_stdin argsPhoto ⟨[7, 8, 9], []⟩ [[true]] =
      (.done, [⟨.sendPhoto, "chan", .bytes [7, 8, 9], none⟩], argsPhoto) :=
  media_sends_single_binary argsPhoto ⟨[7, 8, 9], []⟩ (by decide) []

/-- C6: the configured destination is passed through unchanged to the client
on every delivery attempt, including retried attempts, and so are the keyword
arguments of the call site (first conjunct); at the `transfer_stdin` level,
for kind `text` the keyword argument of every attempt is exactly the
configured parse mode (second conjunct). -/
theorem channel_and_parse_mode_forwarded (args : Args) :
    (∀ (msg : Payload) (kw : Option (Option ParseMode)) (outs : List Bool)
       (c : ClientCall), c ∈ (send_message args msg kw outs).2.1 →
         c.chat_id = args.channel ∧ c.kw_parse_mode = kw) ∧
    (∀ (stdin : Stdin) (os : List (List Bool)) (c : ClientCall),
       c ∈ (transfer_stdin args stdin os).2.1 →
         c.chat_id = args.channel ∧
         (args.type = .text → c.kw_parse_mode = some args.parse_mode)) := by
  constructor
  · intro msg kw outs c hc
    rw [sendLoop_calls msg kw outs args args.retries c hc]
    exact ⟨rfl, rfl⟩
  · intro stdin os c hc
    obtain ⟨p, hp, hcp⟩ :=
      runMessages_calls (plannedMessages args stdin) args os c hc
    subst hcp
    exact ⟨rfl, fun ht => by
      rw [show (⟨MESSAGE_TYPES args.type, args.channel, p.1,
            p.2⟩ : ClientCall).kw_parse_mode = p.2 from rfl,
          plannedMessages_kw args stdin ht p hp]⟩

theorem channel_and_parse_mode_forwarded_witness :
    (⟨.sendMessage, "chan", .text ['h'],
        some (some .HTML)⟩ : ClientCall).chat_id = argsSplit.channel ∧
    (⟨.sendMessage, "chan", .text ['h'],
        some (some .HTML)⟩ : ClientCall).kw_parse_mode =
      some (some ParseMode.HTML) :=
  (channel_and_parse_mode_forwarded argsSplit).1 (.text ['h'])
    (some (some .HTML)) [false, true]
    ⟨.sendMessage, "chan", .text ['h'], some (some .HTML)⟩ (by decide)

/-- C7: once the retry budget of some message is exhausted, the whole run
aborts: with any prefix of successfully sent messages before it, the run
result is the terminal abort carrying the raised error, the call trace ends
with the failing message and contains no call for any later message, the
configuration is unchanged, and the error names the undelivered payload and
the configured retry count. -/
theorem exhausted_retry_aborts_run (args : Args) (e : SendError)
    (pre : List ((Payload × Option (Option ParseMode)) × List Bool))
    (m : Payload) (kw : Option (Option ParseMode)) (o : List Bool)
    (rest : List (Payload × Option (Option ParseMode)))
    (orest : List (List Bool))
    (hpre : ∀ p ∈ pre, (send_message args p.1.1 p.1.2 p.2).1 = .sent)
    (hm : (send_message args m kw o).1 = .raised e) :
    runMessages args (pre.map Prod.fst ++ (m, kw) :: rest)
        (pre.map Prod.snd ++ o :: orest) =
      (.aborted e,
       (pre.map fun p => (send_message args p.1.1 p.1.2 p.2).2.1).flatten
         ++ (send_message args m kw o).2.1,
       args) ∧
    e = ⟨m, args.retries⟩ := by
  refine ⟨?_, sendLoop_raised m kw o args args.retries e hm⟩
  revert hpre
  induction pre with
  | nil =>
    intro _
    simp only [List.map_nil, List.nil_append, List.flatten_nil, runMessages,
      List.headD_cons, hm, send_message_state]
  | cons q pre' ih =>
    intro hpre
    have hq := hpre q (List.mem_cons_self q pre')
    have hrest : ∀ p ∈ pre', (send_message args p.1.1 p.1.2 p.2).1 = .sent :=
      fun p hp => hpre p (List.mem_cons_of_mem q hp)
    simp only [List.map_cons, List.cons_append, runMessages, List.headD_cons,
      hq, List.tail_cons, send_message_state, List.flatten_cons,
      List.append_eq, List.append_assoc, ih hrest]

theorem exhausted_retry_aborts_run_witness :
    runMessages argsSplit
        [(.text ['a'], some (some .HTML)), (.text ['b'], some (some .HTML)),
         (.text ['c'], some (some .HTML))]
        [[true], [false], [true]] =
      (.aborted ⟨.text ['b'], 1⟩,
       [⟨.sendMessage, "chan", .text ['a'], some (some .HTML)⟩,
        ⟨.sendMessage, "chan", .text ['b'], some (some .HTML)⟩],
       argsSplit) ∧
    (⟨.text ['b'], 1⟩ : SendError) = ⟨.text ['b'], argsSplit.retries⟩ :=
  exhausted_retry_aborts_run argsSplit ⟨.text ['b'], 1⟩
    [((.text ['a'], some (some .HTML)), [true])]
    (.text ['b']) (some (some .HTML)) [false]
    [(.text ['c'], some (some .HTML))] [[true]]
    (by decide) (by decide)

/-- C8: every negative value supplied to `--retries` is rejected by
`check_negative` with a usage error and the program does not proceed to read
input or send any message (`main` yields the error and no run); every
non-negative value is accepted and the program proceeds. -/
theorem negative_retries_rejected :
    (∀ v : Int, v < 0 →
       check_negative v =
         .error (toString v ++ " is not a positive integer") ∧
       ∀ (mk : Nat → Args) (stdin : Stdin) (os : List (List Bool)),
         main v mk stdin os =
           .error (toString v ++ " is not a positive integer")) ∧
    (∀ v : Int, 0 ≤ v →
       check_negative v = .ok v ∧
       ∀ (mk : Nat → Args) (stdin : Stdin) (os : List (List Bool)),
         main v mk stdin os = .ok (transfer_stdin (mk v.toNat) stdin os)) := by
  constructor
  · intro v hv
    have hc : check_negative v =
        .error (toString v ++ " is not a positive integer") := by
      simp [check_negative, hv]
    exact ⟨hc, fun mk stdin os => by simp [main, parse_retries, hc]⟩
  · intro v hv
    have hc : check_negative v = .ok v := by
      simp [check_negative, not_lt.mpr hv]
    exact ⟨hc, fun mk stdin os => by simp [main, parse_retries, hc]⟩

theorem negative_retries_rejected_witness :
    (check_negative (-2) =
       .error (toString (-2 : Int) ++ " is not a positive integer") ∧
     main (-2) (fun r => ⟨"tok", "chan", .text, none, false, r⟩) ⟨[], []⟩ [] =
       .error (toString (-2 : Int) ++ " is not a positive integer")) ∧
    check_negative 3 = .ok 3 :=
  ⟨⟨(negative_retries_rejected.1 (-2) (by decide)).1,
    (negative_retries_rejected.1 (-2) (by decide)).2
      (fun r => ⟨"tok", "chan", .text, none, false, r⟩) ⟨[], []⟩ []⟩,
   (negative_retries_rejected.2 3 (by decide)).1⟩

/-- C9: sending never mutates the configuration: `send_message` returns the
configuration unchanged for every message and outcome sequence, and the
state-threading run coincides with the specification-side run in which the
configuration stays the original one and every message starts a fresh retry
budget from the original configured retry count. -/
theorem config_immutable_budget_fresh :
    (∀ (args : Args) (msg : Payload) (kw : Option (Option ParseMode))
       (os : List Bool), (send_message args msg kw os).2.2 = args) ∧
    (∀ (args : Args) (msgs : List (Payload × Option (Option ParseMode)))
       (os : List (List Bool)),
       runMessages args msgs os =
         ((runMessagesSpec args msgs os).1, (runMessagesSpec args msgs os).2,
          args)) :=
  ⟨send_message_state, fun args msgs os => runMessages_eq_spec msgs args os⟩

/-- C10: in split-newlines mode only the exact empty string terminates the
line iteration: a line that is a lone newline is kept by `linesOf` (first
conjunct), the line sequence is empty exactly for empty input (second
conjunct), and on input `"a\n\nb\n"` the blank line is sent as its own
message whose payload is the terminator (third conjunct). -/
theorem blank_line_sent_not_sentinel :
    (∀ cs : List Char, linesOf ('\n' :: cs) = ['\n'] :: linesOf cs) ∧
    (∀ cs : List Char, linesOf cs = [] ↔ cs = []) ∧
    transfer_stdin argsSplit ⟨[], "a\n\nb\n".toList⟩ [[true], [true], [true]] =
      (.done,
       [⟨.sendMessage, "chan", .text "a\n".toList, some (some .HTML)⟩,
        ⟨.sendMessage, "chan", .text ['\n'], some (some .HTML)⟩,
        ⟨.sendMessage, "chan", .text "b\n".toList, some (some .HTML)⟩],
       argsSplit) := by
  refine ⟨?_, ?_, ?_⟩
  · intro cs
    rw [linesOf]
    simp [readline]
  · intro cs
    constructor
    · intro hl
      by_cases h : (readline cs).1 = []
      · exact (readline_fst_eq_nil cs).mp h
      · rw [linesOf, dif_neg h] at hl
        exact absurd hl (by simp)
    · intro hcs
      subst hcs
      simp [linesOf, readline]
  · simp [transfer_stdin, plannedMessages, argsSplit, linesOf, readline,
      runMessages, send_message, sendLoop, MESSAGE_TYPES]

end Botcat
